import Mathlib

/-!
Shallow embedding of bibble's entry-normalization and field-formatting
layer (`bibble/main.py`), together with theorems checking the
natural-language specification against it.

A bibliographic record is a type tag plus a field mapping.  Python dicts
are embedded as insertion-ordered association lists; Python exceptions
become an explicit error type threaded through `Except`.
-/

deriving instance DecidableEq for Except

/-- A record's field mapping: insertion-ordered association list,
modelling a Python `dict` from field name to string value. -/
abbrev Fields : Type := List (String × String)

/-- `e[k]` lookup on a field mapping (first binding wins; bindings are
unique by construction, as in a Python dict). -/
def getF (e : Fields) (k : String) : Option String :=
  match e with
  | [] => none
  | (k', v) :: rest => if k' = k then some v else getF rest k

/-- `k in e` membership test. -/
def hasF (e : Fields) (k : String) : Bool :=
  (getF e k).isSome

/-- `e[k] = v` dict assignment: replace the value in place if the key is
present, else append the new binding (Python dicts keep insertion order). -/
def setF (e : Fields) (k v : String) : Fields :=
  match e with
  | [] => [(k, v)]
  | (k', v') :: rest => if k' = k then (k', v) :: rest else (k', v') :: setF rest k v

/-- One citation entry: a type tag and a field mapping
(pybtex's `entry.type` and `entry.fields`). -/
structure Entry where
  type : String
  fields : Fields
deriving DecidableEq, Repr

/-- The Python exceptions the embedded code can raise. -/
inductive PyError where
  /-- `KeyError` from a dict lookup on a missing key. -/
  | keyError (k : String)
  /-- `ValueError` from `int()` on a non-numeric string. -/
  | valueError (s : String)
  /-- `ValueError('No valid date for %s' % entry)` raised by
  `_better_biblatex`; carries the offending entry's field mapping. -/
  | noDateError (entry : Fields)
  /-- `ValueError(f'Problem with entry {entry}')` raised by `_venue` for
  an inproceedings/incollection entry with no venue field. -/
  | problemEntry (entry : Entry)
  /-- `ValueError('Unexpected bibtex entry type ', entry.type)` raised by
  `_venue` for an unknown entry type in strict mode. -/
  | unexpectedType (t : String)
deriving DecidableEq, Repr

/-! ### Python numeric/string primitives -/

/-- Numeric value of a digit string (the value `int()` returns on it). -/
def natOfDigits (l : List Char) : Nat :=
  l.foldl (fun n c => 10 * n + (c.toNat - 48)) 0

/-- Nonempty all-digit character list. -/
def isDigits (l : List Char) : Bool :=
  !l.isEmpty && l.all Char.isDigit

/-- Python `int(s)`: optional sign followed by digits; `none` models the
`ValueError` raised on any other input. -/
def pyInt (s : String) : Option Int :=
  match s.toList with
  | '-' :: rest => if isDigits rest then some (-(natOfDigits rest : Int)) else none
  | '+' :: rest => if isDigits rest then some ((natOfDigits rest : Int)) else none
  | l => if isDigits l then some ((natOfDigits l : Int)) else none

/-- The character for a decimal digit (applied only to values `≤ 9`). -/
def digitChar (d : Nat) : Char :=
  match d with
  | 0 => '0' | 1 => '1' | 2 => '2' | 3 => '3' | 4 => '4'
  | 5 => '5' | 6 => '6' | 7 => '7' | 8 => '8' | _ => '9'

/-- The `k` decimal digits of `n` (most significant first), `n < 10^k`. -/
def padDigits : Nat → Nat → List Char
  | 0, _ => []
  | k + 1, n => digitChar (n / 10 ^ k) :: padDigits k (n % 10 ^ k)

/-- Python `'\x7b:02d\x7d'.format(n)` for a natural number. -/
def fmt02 (n : Nat) : String :=
  if n < 100 then String.mk (padDigits 2 n) else Nat.repr n

/-- Python `'\x7b:03d\x7d'.format(n)` for a natural number. -/
def fmt03 (n : Nat) : String :=
  if n < 1000 then String.mk (padDigits 3 n) else Nat.repr n

/-- Python `'\x7b:04d\x7d'.format(n)` for a natural number. -/
def fmt04 (n : Nat) : String :=
  if n < 10000 then String.mk (padDigits 4 n) else Nat.repr n

/-- Python `'\x7b:04d\x7d'.format(i)` for an integer: a negative number
keeps its sign and pads to total width 4. -/
def fmt04i : Int → String
  | .ofNat n => fmt04 n
  | .negSucc n => "-" ++ fmt03 (n + 1)

/-! ### The embedded bibble functions -/

/-- The fixed 12-entry month-abbreviation table `MONTHS`. -/
def MONTHS : List (String × Nat) :=
  [("jan", 1), ("feb", 2), ("mar", 3), ("apr", 4), ("may", 5), ("jun", 6),
   ("jul", 7), ("aug", 8), ("sep", 9), ("oct", 10), ("nov", 11), ("dec", 12)]

/-- `_month_match`: a digit string is taken numerically, otherwise the
first three letters, lowercased, are looked up in `MONTHS`; a failed
lookup is the dict's `KeyError`. -/
def _month_match (mon : String) : Except PyError Nat :=
  if isDigits mon.toList then .ok (natOfDigits mon.toList)
  else
    match MONTHS.lookup (String.mk ((mon.toList.map Char.toLower).take 3)) with
    | some n => .ok n
    | none => .error (.keyError (String.mk ((mon.toList.map Char.toLower).take 3)))

/-- `_sortkey`: 4-digit-formatted year, then the 2-digit-formatted month
number, with `"00"` when the month lookup raises `KeyError` (month key
absent, or month string unrecognized). A missing or non-numeric year is
re-raised. -/
def _sortkey (e : Fields) : Except PyError String :=
  match getF e "year" with
  | none => .error (.keyError "year")
  | some ys =>
    match pyInt ys with
    | none => .error (.valueError ys)
    | some y =>
      let year := fmt04i y
      match getF e "month" with
      | none => .ok (year ++ "00")
      | some ms =>
        match _month_match ms with
        | .ok m => .ok (year ++ fmt02 m)
        | .error _ => .ok (year ++ "00")

/-- The fixed calendar table `calendar.month_name`: index 0 is empty,
indices 1–12 are the English month names. -/
def monthNameTable : List String :=
  ["", "January", "February", "March", "April", "May", "June",
   "July", "August", "September", "October", "November", "December"]

/-- Python list indexing `l[i]`: a negative index counts from the end;
`none` models `IndexError`. -/
def pyIndex (l : List String) (i : Int) : Option String :=
  if 0 ≤ i then l.get? i.toNat
  else if 0 ≤ i + l.length then l.get? (i + l.length).toNat
  else none

/-- `_month_name`: `month_name[int(monthnum)]` with every exception
caught and turned into the empty string. -/
def _month_name (monthnum : String) : String :=
  match pyInt monthnum with
  | none => ""
  | some i =>
    match pyIndex monthNameTable i with
    | some s => s
    | none => ""

/-- Python `s.startswith(p)`. -/
def pyStartswith (s p : String) : Bool :=
  p.toList.isPrefixOf s.toList

/-- `_doi`: empty if the field is absent; a value starting with `"http"`
is returned unchanged, anything else gets the fixed resolver base. -/
def _doi (e : Fields) : String :=
  match getF e "doi" with
  | none => ""
  | some d => if pyStartswith d "http" then d else "https://dx.doi.org/" ++ d

/-- Python `sep.join(ss)`. -/
def pyJoin (sep : String) (ss : List String) : String :=
  match ss with
  | [] => ""
  | s :: rest => rest.foldl (fun acc x => acc ++ sep ++ x) s

/-- `_andlist`: English list punctuation with the Oxford comma. -/
def _andlist (ss : List String) (sep seplast septwo : String) : String :=
  if ss.length ≤ 1 then pyJoin "" ss
  else if ss.length = 2 then pyJoin septwo ss
  else pyJoin sep ss.dropLast ++ seplast ++ ss.getLastD ""

/-- `_andlist` at its default separators. -/
def english_list (ss : List String) : String :=
  _andlist ss ", " ", and " " and "

/-- The `journaltitle → journal` mirroring step of `_better_biblatex`. -/
def mirrorJournal (e : Fields) : Fields :=
  match getF e "journaltitle" with
  | some jt => setF e "journal" jt
  | none => e

/-- The no-year branch of `_better_biblatex`: set `year` to the first 4
characters of the date and, if the date is long enough, `month` to
characters 6–7. -/
def dateDerive (entry : Fields) (d : String) : Fields :=
  let e1 := setF entry "year" (d.take 4)
  if 7 ≤ d.length then setF e1 "month" ((d.drop 5).take 2) else e1

/-- `_better_biblatex`: derive `year` (and, for a long enough date,
`month`) from `date` when `year` is absent, raising when neither exists;
then mirror `journaltitle` into `journal`. -/
def _better_biblatex (entry : Fields) : Except PyError Fields :=
  if hasF entry "year" then .ok (mirrorJournal entry)
  else
    match getF entry "date" with
    | none => .error (.noDateError entry)
    | some d => .ok (mirrorJournal (dateDerive entry d))

/-- The opening curly brace character `\x7b`. -/
def braceL : Char := Char.ofNat 123

/-- The closing curly brace character `\x7d`. -/
def braceR : Char := Char.ofNat 125

/-- Remove every occurrence of a character (`str.replace(c, '')`). -/
def removeAll (c : Char) (s : String) : String :=
  String.mk (s.toList.filter (fun a => a ≠ c))

/-- The final `replace` pair of `_venue`: strip `\x7b` and `\x7d`. -/
def stripBraces (s : String) : String :=
  removeAll braceR (removeAll braceL s)

/-- The type-dependent venue string of `_venue`, before brace stripping
(`f` in the source is an alias for `entry.fields`, inlined here). -/
def venueRaw (entry : Entry) (halt_if_unknown : Bool) : Except PyError String :=
  if entry.type = "article" then
    match getF entry.fields "journal" with
    | none => .error (.keyError "journal")
    | some j =>
      match getF entry.fields "volume" with
      | none => .ok j
      | some v =>
        if v = "" then .ok j
        else
          match getF entry.fields "number" with
          | none => .ok j
          | some n => if n = "" then .ok j else .ok (j ++ " " ++ v ++ "(" ++ n ++ ")")
  else if entry.type = "inproceedings" ∨ entry.type = "incollection" then
    let base : Except PyError String :=
      match getF entry.fields "booktitle" with
      | some b => .ok b
      | none =>
        match getF entry.fields "eventtitle" with
        | some b => .ok b
        | none =>
          match getF entry.fields "conference" with
          | some b => .ok b
          | none => .error (.problemEntry entry)
    match base with
    | .error err => .error err
    | .ok venue =>
      match getF entry.fields "series" with
      | none => .ok venue
      | some s => if s = "" then .ok venue else .ok (venue ++ " (" ++ s ++ ")")
  else if entry.type = "inbook" then
    match getF entry.fields "title" with
    | none => .error (.keyError "title")
    | some t => .ok t
  else if entry.type = "techreport" then
    let number := match getF entry.fields "number" with
      | some n => n ++ ", "
      | none => ""
    let howpublished := match getF entry.fields "institution" with
      | some i => i
      | none =>
        match getF entry.fields "publisher" with
        | some p => p
        | none => ""
    .ok (number ++ howpublished)
  else if entry.type = "phdthesis" ∨ entry.type = "mastersthesis" then
    .ok ""
  else if entry.type = "unpublished" ∨ entry.type = "misc" then
    match getF entry.fields "eventtitle" with
    | some ev => .ok ("In " ++ ev)
    | none => .ok "Unpublished"
  else
    if halt_if_unknown then .error (.unexpectedType entry.type)
    else .ok ("Unknown venue (type=" ++ entry.type ++ ")")

/-- `_venue`: the type-dependent venue string with curly braces removed. -/
def _venue (entry : Entry) (halt_if_unknown : Bool) : Except PyError String :=
  match venueRaw entry halt_if_unknown with
  | .error err => .error err
  | .ok v => .ok (stripBraces v)

/-- The entry types `_venue` has a formatting rule for. -/
def supportedTypes : List String :=
  ["article", "inproceedings", "incollection", "inbook", "techreport",
   "phdthesis", "mastersthesis", "unpublished", "misc"]

/-! ### Lemmas about the field-mapping operations -/

theorem getF_setF (e : Fields) (k v k' : String) :
    getF (setF e k v) k' = if k = k' then some v else getF e k' := by
  induction e with
  | nil => simp [setF, getF]
  | cons a rest ih =>
    obtain ⟨ka, va⟩ := a
    simp only [setF]
    by_cases hak : ka = k
    · subst hak
      by_cases hk' : ka = k' <;> simp [getF, hk']
    · rw [if_neg hak]
      by_cases hk' : ka = k'
      · subst hk'
        have hkk : ¬ ka = k := hak
        have hkk' : ¬ k = ka := fun h => hak h.symm
        simp [getF, hkk']
      · simp [getF, hk', ih]

theorem hasF_iff_getF (e : Fields) (k : String) :
    hasF e k = true ↔ ∃ v, getF e k = some v := by
  simp [hasF, Option.isSome_iff_exists]

theorem hasF_setF (e : Fields) (k v k' : String) :
    hasF (setF e k v) k' = (decide (k = k') || hasF e k') := by
  by_cases h : k = k' <;> simp [hasF, getF_setF, h]

theorem getF_mirrorJournal_ne (e : Fields) (k : String) (hk : k ≠ "journal") :
    getF (mirrorJournal e) k = getF e k := by
  unfold mirrorJournal
  cases h : getF e "journaltitle" with
  | none => rfl
  | some jt =>
    have hkk : ¬ ("journal" = k) := fun h => hk h.symm
    simp [getF_setF, hkk]

theorem getF_mirrorJournal_journal_some (e : Fields) (jt : String)
    (h : getF e "journaltitle" = some jt) :
    getF (mirrorJournal e) "journal" = some jt := by
  unfold mirrorJournal
  rw [h]
  simp [getF_setF]

theorem getF_mirrorJournal_journal_none (e : Fields)
    (h : getF e "journaltitle" = none) :
    getF (mirrorJournal e) "journal" = getF e "journal" := by
  unfold mirrorJournal
  rw [h]

theorem hasF_mirrorJournal_of_hasF (e : Fields) (k : String) (h : hasF e k = true) :
    hasF (mirrorJournal e) k = true := by
  unfold mirrorJournal
  cases hj : getF e "journaltitle" with
  | none => exact h
  | some jt => simp [hasF_setF, h]

theorem strAppend_assoc (a b c : String) : a ++ b ++ c = a ++ (b ++ c) := by
  refine String.toList_inj.mp ?_
  show (a ++ b ++ c).data = (a ++ (b ++ c)).data
  simp [String.data_append, List.append_assoc]

/-! ### Lemmas about the date-derivation and normalization branches -/

theorem getF_dateDerive_year (e : Fields) (d : String) :
    getF (dateDerive e d) "year" = some (d.take 4) := by
  unfold dateDerive
  by_cases hlen : 7 ≤ d.length
  · rw [if_pos hlen, getF_setF, if_neg (by decide : ¬ ("month" = "year")),
      getF_setF, if_pos (rfl : "year" = "year")]
  · rw [if_neg hlen, getF_setF, if_pos (rfl : "year" = "year")]

theorem getF_dateDerive_month_long (e : Fields) (d : String) (hlen : 7 ≤ d.length) :
    getF (dateDerive e d) "month" = some ((d.drop 5).take 2) := by
  unfold dateDerive
  rw [if_pos hlen, getF_setF, if_pos (rfl : "month" = "month")]

theorem getF_dateDerive_month_short (e : Fields) (d : String) (hlen : ¬ 7 ≤ d.length) :
    getF (dateDerive e d) "month" = getF e "month" := by
  unfold dateDerive
  rw [if_neg hlen, getF_setF, if_neg (by decide : ¬ ("year" = "month"))]

theorem getF_dateDerive_ne (e : Fields) (d : String) (k : String)
    (h1 : k ≠ "year") (h2 : k ≠ "month") :
    getF (dateDerive e d) k = getF e k := by
  unfold dateDerive
  by_cases hlen : 7 ≤ d.length
  · rw [if_pos hlen, getF_setF, if_neg (fun hc => h2 hc.symm),
      getF_setF, if_neg (fun hc => h1 hc.symm)]
  · rw [if_neg hlen, getF_setF, if_neg (fun hc => h1 hc.symm)]

theorem hasF_dateDerive_of_hasF (e : Fields) (d : String) (k : String)
    (h : hasF e k = true) : hasF (dateDerive e d) k = true := by
  unfold dateDerive
  by_cases hlen : 7 ≤ d.length
  · rw [if_pos hlen]
    simp [hasF_setF, h]
  · rw [if_neg hlen]
    simp [hasF_setF, h]

theorem hasF_dateDerive_year (e : Fields) (d : String) :
    hasF (dateDerive e d) "year" = true := by
  rw [hasF, getF_dateDerive_year]
  rfl

theorem better_biblatex_eq_of_year (e : Fields) (hy : hasF e "year" = true) :
    _better_biblatex e = .ok (mirrorJournal e) := by
  unfold _better_biblatex
  rw [if_pos hy]

theorem better_biblatex_eq_of_date (e : Fields) (d : String)
    (hy : ¬ hasF e "year" = true) (hd : getF e "date" = some d) :
    _better_biblatex e = .ok (mirrorJournal (dateDerive e d)) := by
  unfold _better_biblatex
  rw [if_neg hy, hd]

theorem better_biblatex_eq_of_nodate (e : Fields)
    (hy : ¬ hasF e "year" = true) (hd : getF e "date" = none) :
    _better_biblatex e = .error (.noDateError e) := by
  unfold _better_biblatex
  rw [if_neg hy, hd]

/-! ### Claim theorems: dialect normalization -/

/-- C3: after dialect normalization, a pre-existing year is left
unchanged; otherwise the year is the first 4 characters of the date, the
month is characters 6–7 (1-indexed) of a date of length at least 7, and a
shorter date adds no month key. -/
theorem better_biblatex_date_fields (e e' : Fields)
    (h : _better_biblatex e = .ok e') :
    (hasF e "year" = true → getF e' "year" = getF e "year") ∧
    (hasF e "year" = false → ∀ d, getF e "date" = some d →
      getF e' "year" = some (d.take 4) ∧
      (7 ≤ d.length → getF e' "month" = some ((d.drop 5).take 2)) ∧
      (d.length < 7 → getF e' "month" = getF e "month")) := by
  by_cases hy : hasF e "year" = true
  · rw [better_biblatex_eq_of_year e hy] at h
    injection h with h2
    subst h2
    constructor
    · intro _
      exact getF_mirrorJournal_ne e "year" (by decide)
    · intro hf
      rw [hy] at hf
      cases hf
  · constructor
    · intro ht
      exact absurd ht hy
    · intro _ d hd
      rw [better_biblatex_eq_of_date e d hy hd] at h
      injection h with h2
      subst h2
      refine ⟨?_, fun hlen => ?_, fun hshort => ?_⟩
      · rw [getF_mirrorJournal_ne _ _ (by decide), getF_dateDerive_year]
      · rw [getF_mirrorJournal_ne _ _ (by decide), getF_dateDerive_month_long _ _ hlen]
      · rw [getF_mirrorJournal_ne _ _ (by decide),
          getF_dateDerive_month_short _ _ (by omega)]

/-- C3 witness: a record with `date = "2019-05-12"` and no year gets
`year = "2019"` and `month = "05"`. -/
theorem better_biblatex_date_fields_witness :
    getF [("date", "2019-05-12"), ("year", "2019"), ("month", "05")] "year" =
      some ("2019-05-12".take 4) ∧
    getF [("date", "2019-05-12"), ("year", "2019"), ("month", "05")] "month" =
      some (("2019-05-12".drop 5).take 2) := by
  have h := better_biblatex_date_fields [("date", "2019-05-12")]
    [("date", "2019-05-12"), ("year", "2019"), ("month", "05")] (by decide)
  have h2 := h.2 (by decide) "2019-05-12" (by decide)
  exact ⟨h2.1, h2.2.1 (by decide)⟩

/-- C4: a record with neither year nor date fails normalization with the
fatal no-valid-date error carrying the offending entry, and every record
that passes normalization has a year field. -/
theorem better_biblatex_requires_date (e : Fields) :
    (hasF e "year" = false → hasF e "date" = false →
      _better_biblatex e = .error (.noDateError e)) ∧
    (∀ e', _better_biblatex e = .ok e' → hasF e' "year" = true) := by
  constructor
  · intro hy hd
    have hnone : getF e "date" = none := by
      cases h : getF e "date" with
      | none => rfl
      | some d => rw [hasF, h] at hd; cases hd
    exact better_biblatex_eq_of_nodate e (by simp [hy]) hnone
  · intro e' h
    by_cases hy : hasF e "year" = true
    · rw [better_biblatex_eq_of_year e hy] at h
      injection h with h2
      subst h2
      exact hasF_mirrorJournal_of_hasF _ _ hy
    · cases hd : getF e "date" with
      | none => rw [better_biblatex_eq_of_nodate e hy hd] at h; cases h
      | some d =>
        rw [better_biblatex_eq_of_date e d hy hd] at h
        injection h with h2
        subst h2
        exact hasF_mirrorJournal_of_hasF _ _ (hasF_dateDerive_year e d)

/-- C4 witness: a record with only a title has neither year nor date and
is rejected with the no-valid-date error. -/
theorem better_biblatex_requires_date_witness :
    _better_biblatex [("title", "T")] = .error (.noDateError [("title", "T")]) :=
  (better_biblatex_requires_date [("title", "T")]).1 (by decide) (by decide)

/-- C6 counterexample: normalization does change a pre-existing field
value — with both `journal` and `journaltitle` present, the `journal`
value "Alpha" is overwritten by the `journaltitle` value "Nature". -/
theorem better_biblatex_overwrites_journal :
    _better_biblatex [("year", "2000"), ("journal", "Alpha"), ("journaltitle", "Nature")] =
      .ok [("year", "2000"), ("journal", "Nature"), ("journaltitle", "Nature")] ∧
    getF [("year", "2000"), ("journal", "Alpha"), ("journaltitle", "Nature")] "journal" =
      some "Alpha" ∧
    getF [("year", "2000"), ("journal", "Nature"), ("journaltitle", "Nature")] "journal" ≠
      some "Alpha" := by
  decide

/-- C6 amended: normalization never removes a field and leaves every
field other than `year`, `month`, `journal` unchanged; with a year
present, year and month are unchanged; `journal` is set (possibly
overwritten) from `journaltitle` whenever the latter is present, and is
untouched when it is absent. -/
theorem better_biblatex_frame (e e' : Fields) (h : _better_biblatex e = .ok e') :
    (∀ k, hasF e k = true → hasF e' k = true) ∧
    (∀ k, k ≠ "year" → k ≠ "month" → k ≠ "journal" → getF e' k = getF e k) ∧
    (hasF e "year" = true →
      getF e' "year" = getF e "year" ∧ getF e' "month" = getF e "month") ∧
    (∀ jt, getF e "journaltitle" = some jt → getF e' "journal" = some jt) ∧
    (getF e "journaltitle" = none → getF e' "journal" = getF e "journal") := by
  by_cases hy : hasF e "year" = true
  · rw [better_biblatex_eq_of_year e hy] at h
    injection h with h2
    subst h2
    refine ⟨fun k hk => hasF_mirrorJournal_of_hasF _ _ hk,
      fun k _ _ hk3 => getF_mirrorJournal_ne _ _ hk3,
      fun _ => ⟨getF_mirrorJournal_ne _ _ (by decide),
        getF_mirrorJournal_ne _ _ (by decide)⟩,
      fun jt hjt => getF_mirrorJournal_journal_some _ _ hjt,
      fun hn => getF_mirrorJournal_journal_none _ hn⟩
  · cases hd : getF e "date" with
    | none => rw [better_biblatex_eq_of_nodate e hy hd] at h; cases h
    | some d =>
      rw [better_biblatex_eq_of_date e d hy hd] at h
      injection h with h2
      subst h2
      refine ⟨fun k hk => hasF_mirrorJournal_of_hasF _ _ (hasF_dateDerive_of_hasF _ _ _ hk),
        fun k hk1 hk2 hk3 => ?_,
        fun hyt => absurd hyt hy,
        fun jt hjt => getF_mirrorJournal_journal_some _ _ ?_,
        fun hn => ?_⟩
      · rw [getF_mirrorJournal_ne _ _ hk3, getF_dateDerive_ne _ _ _ hk1 hk2]
      · rw [getF_dateDerive_ne _ _ _ (by decide) (by decide)]
        exact hjt
      · rw [getF_mirrorJournal_journal_none, getF_dateDerive_ne _ _ _ (by decide) (by decide)]
        rw [getF_dateDerive_ne _ _ _ (by decide) (by decide)]
        exact hn

/-- C6 amended witness: mirroring `journaltitle = "Nature"` into a record
without a `journal` field keeps `journaltitle` and yields
`journal = "Nature"`. -/
theorem better_biblatex_frame_witness :
    getF [("year", "2019"), ("journaltitle", "Nature"), ("journal", "Nature")]
      "journaltitle" = getF [("year", "2019"), ("journaltitle", "Nature")] "journaltitle" ∧
    getF [("year", "2019"), ("journaltitle", "Nature"), ("journal", "Nature")]
      "journal" = some "Nature" := by
  have h := better_biblatex_frame [("year", "2019"), ("journaltitle", "Nature")]
    [("year", "2019"), ("journaltitle", "Nature"), ("journal", "Nature")] (by decide)
  exact ⟨h.2.1 "journaltitle" (by decide) (by decide) (by decide),
    h.2.2.2.1 "Nature" (by decide)⟩

/-! ### Claim theorems: English list formatter and DOI -/

/-- C5: the English list formatter returns the empty string on an empty
list, the element itself on a singleton, two elements joined with
" and ", and for three or more elements joins all but the last with ", "
and appends ", and " before the last (Oxford comma). -/
theorem andlist_english_rules :
    english_list [] = "" ∧
    (∀ a : String, english_list [a] = a) ∧
    (∀ a b : String, english_list [a, b] = a ++ " and " ++ b) ∧
    (∀ ss : List String, 3 ≤ ss.length →
      english_list ss = pyJoin ", " ss.dropLast ++ ", and " ++ ss.getLastD "") ∧
    english_list ["A", "B", "C"] = "A, B, and C" := by
  refine ⟨rfl, fun a => rfl, fun a b => ?_, fun ss h3 => ?_, by decide⟩
  · show (a ++ " and ") ++ b = a ++ " and " ++ b
    rw [strAppend_assoc]
  · unfold english_list _andlist
    rw [if_neg (by omega), if_neg (by omega)]

/-- C5 witness: the four-element list is comma-joined with an Oxford
comma before the final element. -/
theorem andlist_english_rules_witness :
    english_list ["A", "B", "C", "D"] =
      pyJoin ", " (["A", "B", "C", "D"].dropLast) ++ ", and " ++
        (["A", "B", "C", "D"].getLastD "") :=
  andlist_english_rules.2.2.2.1 ["A", "B", "C", "D"] (by decide)

/-- C9: the doi extractor returns the empty string when the field is
absent, the raw value when it already starts with "http", and the value
prefixed with the fixed resolver base otherwise. -/
theorem doi_link_rules (e : Fields) :
    (getF e "doi" = none → _doi e = "") ∧
    (∀ d, getF e "doi" = some d → pyStartswith d "http" = true → _doi e = d) ∧
    (∀ d, getF e "doi" = some d → pyStartswith d "http" = false →
      _doi e = "https://dx.doi.org/" ++ d) := by
  refine ⟨fun h => ?_, fun d h hs => ?_, fun d h hs => ?_⟩ <;>
    unfold _doi <;> rw [h] <;> simp [hs]

/-- C9 witness: `doi = "10.1000/xyz"` is prefixed with the resolver base
and `doi = "https://doi.org/10.1000/xyz"` is returned unchanged. -/
theorem doi_link_rules_witness :
    _doi [("doi", "10.1000/xyz")] = "https://dx.doi.org/" ++ "10.1000/xyz" ∧
    _doi [("doi", "https://doi.org/10.1000/xyz")] = "https://doi.org/10.1000/xyz" ∧
    _doi [("title", "T")] = "" :=
  ⟨(doi_link_rules _).2.2 "10.1000/xyz" (by decide) (by decide),
   (doi_link_rules _).2.1 "https://doi.org/10.1000/xyz" (by decide) (by decide),
   (doi_link_rules _).1 (by decide)⟩

/-! ### Lemmas about brace stripping and the venue formatter -/

theorem toList_removeAll (c : Char) (s : String) :
    (removeAll c s).toList = s.toList.filter (fun a => a ≠ c) := rfl

theorem toList_strAppend (a b : String) :
    (a ++ b).toList = a.toList ++ b.toList := rfl

theorem mk_toList (s : String) : String.mk s.toList = s := rfl

theorem not_mem_removeAll (c : Char) (s : String) : c ∉ (removeAll c s).toList := by
  intro hmem
  rw [toList_removeAll] at hmem
  have := (List.mem_filter.mp hmem).2
  simp at this

theorem mem_of_mem_removeAll {a : Char} (c : Char) (s : String)
    (h : a ∈ (removeAll c s).toList) : a ∈ s.toList :=
  (List.mem_filter.mp (by rw [toList_removeAll] at h; exact h)).1

theorem stripBraces_no_brace (s : String) :
    braceL ∉ (stripBraces s).toList ∧ braceR ∉ (stripBraces s).toList := by
  unfold stripBraces
  refine ⟨fun h => ?_, not_mem_removeAll braceR _⟩
  exact not_mem_removeAll braceL s (mem_of_mem_removeAll braceR _ h)

theorem removeAll_eq_self (c : Char) (s : String) (h : c ∉ s.toList) :
    removeAll c s = s := by
  unfold removeAll
  have : s.toList.filter (fun a => a ≠ c) = s.toList := by
    apply List.filter_eq_self.mpr
    intro a ha
    have hne : a ≠ c := fun hc => h (hc ▸ ha)
    simp [hne]
  rw [this, mk_toList]

theorem stripBraces_eq_self (s : String)
    (h1 : braceL ∉ s.toList) (h2 : braceR ∉ s.toList) :
    stripBraces s = s := by
  unfold stripBraces
  rw [removeAll_eq_self braceL s h1, removeAll_eq_self braceR s h2]

theorem venueRaw_unknown_strict (en : Entry) (hne : en.type ∉ supportedTypes) :
    venueRaw en true = .error (.unexpectedType en.type) := by
  simp only [supportedTypes, List.mem_cons, List.not_mem_nil, or_false] at hne
  push_neg at hne
  obtain ⟨h1, h2, h3, h4, h5, h6, h7, h8, h9⟩ := hne
  unfold venueRaw
  rw [if_neg h1, if_neg (not_or.mpr ⟨h2, h3⟩), if_neg h4, if_neg h5,
    if_neg (not_or.mpr ⟨h6, h7⟩), if_neg (not_or.mpr ⟨h8, h9⟩)]
  rfl

theorem venueRaw_unknown_lenient (en : Entry) (hne : en.type ∉ supportedTypes) :
    venueRaw en false = .ok ("Unknown venue (type=" ++ en.type ++ ")") := by
  simp only [supportedTypes, List.mem_cons, List.not_mem_nil, or_false] at hne
  push_neg at hne
  obtain ⟨h1, h2, h3, h4, h5, h6, h7, h8, h9⟩ := hne
  unfold venueRaw
  rw [if_neg h1, if_neg (not_or.mpr ⟨h2, h3⟩), if_neg h4, if_neg h5,
    if_neg (not_or.mpr ⟨h6, h7⟩), if_neg (not_or.mpr ⟨h8, h9⟩)]
  rfl

/-! ### Claim theorems: venue formatting -/

/-- C7: for a record whose type is outside the supported venue
vocabulary, strict mode raises the unexpected-type error naming the type,
and lenient mode returns the placeholder naming the type (stated for
brace-free type tags, since the placeholder passes through the final
brace-stripping step like every venue string). -/
theorem venue_unknown_type (en : Entry) (hne : en.type ∉ supportedTypes) :
    _venue en true = .error (.unexpectedType en.type) ∧
    (braceL ∉ en.type.toList → braceR ∉ en.type.toList →
      _venue en false = .ok ("Unknown venue (type=" ++ en.type ++ ")")) := by
  constructor
  · unfold _venue
    rw [venueRaw_unknown_strict en hne]
  · intro hb1 hb2
    unfold _venue
    rw [venueRaw_unknown_lenient en hne]
    have hx1 : braceL ∉ ("Unknown venue (type=" ++ en.type ++ ")").toList := by
      rw [toList_strAppend, toList_strAppend]
      simp only [List.mem_append]
      rintro ((h | h) | h)
      · exact absurd h (by decide)
      · exact hb1 h
      · exact absurd h (by decide)
    have hx2 : braceR ∉ ("Unknown venue (type=" ++ en.type ++ ")").toList := by
      rw [toList_strAppend, toList_strAppend]
      simp only [List.mem_append]
      rintro ((h | h) | h)
      · exact absurd h (by decide)
      · exact hb2 h
      · exact absurd h (by decide)
    show Except.ok (stripBraces ("Unknown venue (type=" ++ en.type ++ ")")) =
      Except.ok ("Unknown venue (type=" ++ en.type ++ ")")
    rw [stripBraces_eq_self _ hx1 hx2]

/-- C7 witness: type "webpage" is unsupported; strict mode errors and
lenient mode produces the placeholder. -/
theorem venue_unknown_type_witness :
    _venue ⟨"webpage", []⟩ true = .error (.unexpectedType "webpage") ∧
    _venue ⟨"webpage", []⟩ false = .ok ("Unknown venue (type=" ++ "webpage" ++ ")") :=
  have h := venue_unknown_type ⟨"webpage", []⟩ (by decide)
  ⟨h.1, h.2 (by decide) (by decide)⟩

/-- C10: whenever the venue extractor returns a string rather than
raising, that string contains no curly-brace characters, for every entry
type and either lenient setting. -/
theorem venue_strips_braces (en : Entry) (halt : Bool) (v : String)
    (h : _venue en halt = .ok v) :
    braceL ∉ v.toList ∧ braceR ∉ v.toList := by
  unfold _venue at h
  cases hr : venueRaw en halt with
  | error err => rw [hr] at h; cases h
  | ok raw =>
    rw [hr] at h
    injection h with h2
    subst h2
    exact stripBraces_no_brace raw

/-- C10 witness: an article whose journal field contains braces yields a
venue string with the braces removed. -/
theorem venue_strips_braces_witness :
    braceL ∉ ("AB" : String).toList ∧ braceR ∉ ("AB" : String).toList :=
  venue_strips_braces ⟨"article", [("journal", "A\x7bB\x7d")]⟩ true "AB" (by decide)

/-! ### Lexicographic order of zero-padded decimal keys -/

theorem digitChar_lt_digitChar :
    ∀ a, a < 10 → ∀ b, b < 10 → a < b → digitChar a < digitChar b := by decide

theorem lex_append_left (p : List Char) {s t : List Char}
    (h : List.Lex (· < ·) s t) : List.Lex (· < ·) (p ++ s) (p ++ t) := by
  induction p with
  | nil => exact h
  | cons a as ih => exact List.Lex.cons ih

theorem padDigits_lex :
    ∀ (k n m : Nat), n < m → m < 10 ^ k →
      ∀ s t : List Char, List.Lex (· < ·) (padDigits k n ++ s) (padDigits k m ++ t) := by
  intro k
  induction k with
  | zero =>
    intro n m hnm hm s t
    rw [pow_zero] at hm
    omega
  | succ k ih =>
    intro n m hnm hm s t
    have hp : 0 < 10 ^ k := pow_pos (by norm_num) k
    have hm' : m < 10 ^ k * 10 := by rw [← pow_succ]; exact hm
    have hdm : m / 10 ^ k < 10 :=
      (Nat.div_lt_iff_lt_mul hp).mpr (by rw [Nat.mul_comm]; exact hm')
    have hdn : n / 10 ^ k ≤ m / 10 ^ k := Nat.div_le_div_right (Nat.le_of_lt hnm)
    simp only [padDigits]
    rcases Nat.lt_or_ge (n / 10 ^ k) (m / 10 ^ k) with hlt | hge
    · exact List.Lex.rel
        (digitChar_lt_digitChar _ (lt_of_le_of_lt hdn hdm) _ hdm hlt)
    · have heq : n / 10 ^ k = m / 10 ^ k := Nat.le_antisymm hdn hge
      rw [heq]
      apply List.Lex.cons
      apply ih
      · have h1 := Nat.div_add_mod n (10 ^ k)
        have h2 := Nat.div_add_mod m (10 ^ k)
        rw [heq] at h1
        omega
      · exact Nat.mod_lt _ hp

theorem toList_fmt04 (n : Nat) (h : n ≤ 9999) : (fmt04 n).toList = padDigits 4 n := by
  unfold fmt04
  rw [if_pos (by omega)]
  rfl

theorem toList_fmt02 (n : Nat) (h : n ≤ 99) : (fmt02 n).toList = padDigits 2 n := by
  unfold fmt02
  rw [if_pos (by omega)]
  rfl

/-- Lexicographic comparison of two year-month keys: a smaller year, or
an equal year with a smaller month, gives a strictly smaller key. -/
theorem key_lt (y1 m1 y2 m2 : Nat) (hy2 : y2 ≤ 9999) (hm1 : m1 ≤ 99) (hm2 : m2 ≤ 99)
    (h : y1 < y2 ∨ (y1 = y2 ∧ m1 < m2)) :
    fmt04 y1 ++ fmt02 m1 < fmt04 y2 ++ fmt02 m2 := by
  have hy1 : y1 ≤ 9999 := by
    rcases h with h | ⟨rfl, _⟩
    · omega
    · exact hy2
  rw [String.lt_iff_toList_lt]
  have e1 : (fmt04 y1 ++ fmt02 m1).toList = padDigits 4 y1 ++ padDigits 2 m1 := by
    rw [toList_strAppend, toList_fmt04 _ hy1, toList_fmt02 _ hm1]
  have e2 : (fmt04 y2 ++ fmt02 m2).toList = padDigits 4 y2 ++ padDigits 2 m2 := by
    rw [toList_strAppend, toList_fmt04 _ hy2, toList_fmt02 _ hm2]
  rw [e1, e2]
  show List.Lex (· < ·) (padDigits 4 y1 ++ padDigits 2 m1)
    (padDigits 4 y2 ++ padDigits 2 m2)
  rcases h with hlt | ⟨heq, hm⟩
  · exact padDigits_lex 4 y1 y2 hlt (lt_of_le_of_lt hy2 (by norm_num)) _ _
  · subst heq
    apply lex_append_left
    have h0 := padDigits_lex 2 m1 m2 hm (lt_of_le_of_lt hm2 (by norm_num)) [] []
    simpa using h0

theorem fmt02_zero : fmt02 0 = "00" := by decide

/-! ### Claim theorems: sort key -/

/-- C1: the sort key of a record with a numeric year is the 4-digit
zero-padded year followed by the 2-digit zero-padded month number when
the month resolves, and by "00" when the month key is absent; such keys
are strictly increasing month to month, every key of year y+1 exceeds
every key of year y, and the monthless key of a year sorts before every
keyed month of that year. -/
theorem sortkey_chronological :
    (∀ (e : Fields) (ys : String) (y : Nat),
      getF e "year" = some ys → pyInt ys = some (y : Int) →
      (getF e "month" = none → _sortkey e = .ok (fmt04 y ++ "00")) ∧
      (∀ ms m, getF e "month" = some ms → _month_match ms = .ok m →
        _sortkey e = .ok (fmt04 y ++ fmt02 m))) ∧
    (∀ y m : Nat, 1 ≤ m → m ≤ 12 → y ≤ 9999 →
      fmt04 y ++ fmt02 (m - 1) < fmt04 y ++ fmt02 m) ∧
    (∀ y m1 m2 : Nat, m1 ≤ 12 → m2 ≤ 12 → y + 1 ≤ 9999 →
      fmt04 y ++ fmt02 m2 < fmt04 (y + 1) ++ fmt02 m1) ∧
    (∀ y m : Nat, 1 ≤ m → m ≤ 12 → y ≤ 9999 →
      fmt04 y ++ "00" < fmt04 y ++ fmt02 m) := by
  refine ⟨fun e ys y hy hyi => ⟨fun hm => ?_, fun ms m hm hmm => ?_⟩,
    fun y m h1 h2 h3 => ?_, fun y m1 m2 h1 h2 h3 => ?_, fun y m h1 h2 h3 => ?_⟩
  · simp only [_sortkey, hy, hyi, hm]
    rfl
  · simp only [_sortkey, hy, hyi, hm, hmm]
    rfl
  · exact key_lt y (m - 1) y m (by omega) (by omega) (by omega) (by omega)
  · exact key_lt y m2 (y + 1) m1 (by omega) (by omega) (by omega) (by omega)
  · rw [← fmt02_zero]
    exact key_lt y 0 y m (by omega) (by omega) (by omega) (by omega)

/-- C1 witness: concrete keys for 2001-05, the monthless 2001 key, and
the order facts at those instances. -/
theorem sortkey_chronological_witness :
    _sortkey [("year", "2001"), ("month", "May")] = .ok (fmt04 2001 ++ fmt02 5) ∧
    _sortkey [("year", "2001")] = .ok (fmt04 2001 ++ "00") ∧
    fmt04 2001 ++ fmt02 4 < fmt04 2001 ++ fmt02 5 ∧
    fmt04 2000 ++ fmt02 12 < fmt04 2001 ++ fmt02 1 ∧
    fmt04 2001 ++ "00" < fmt04 2001 ++ fmt02 5 :=
  ⟨((sortkey_chronological.1 [("year", "2001"), ("month", "May")] "2001" 2001
      (by decide) (by decide)).2 "May" 5 (by decide) (by decide)),
   ((sortkey_chronological.1 [("year", "2001")] "2001" 2001
      (by decide) (by decide)).1 (by decide)),
   sortkey_chronological.2.1 2001 5 (by decide) (by decide) (by decide),
   sortkey_chronological.2.2.1 2000 1 12 (by decide) (by decide) (by decide),
   sortkey_chronological.2.2.2 2001 5 (by decide) (by decide) (by decide)⟩

/-- C2 counterexample: a record whose month "Smarch" is neither numeric
nor a recognizable month name does not make sort-key generation fail —
the key falls back to the year with "00". -/
theorem sortkey_unknown_month_cex :
    _sortkey [("year", "2000"), ("month", "Smarch")] = .ok "200000" ∧
    _month_match "Smarch" = .error (.keyError "sma") := by decide

/-- C2 amended: when the month field is present but unrecognized, the
month lookup's KeyError is caught and the sort key falls back to the
year followed by "00", exactly as if the month were absent; sort-key
generation only fails on a missing or non-numeric year. -/
theorem sortkey_unknown_month_fallback (e : Fields) (ys ms : String) (y : Int)
    (err : PyError) (hy : getF e "year" = some ys) (hyi : pyInt ys = some y)
    (hm : getF e "month" = some ms) (hmm : _month_match ms = .error err) :
    _sortkey e = .ok (fmt04i y ++ "00") := by
  simp only [_sortkey, hy, hyi, hm, hmm]

/-- C2 amended witness: the "Smarch" record gets the year-00 key. -/
theorem sortkey_unknown_month_fallback_witness :
    _sortkey [("year", "2004"), ("month", "Smarch")] = .ok (fmt04i 2004 ++ "00") :=
  sortkey_unknown_month_fallback [("year", "2004"), ("month", "Smarch")]
    "2004" "Smarch" 2004 (.keyError "sma") (by decide) (by decide) (by decide) (by decide)

/-! ### Claim theorems: month names -/

/-- C8 counterexample: the month-name extractor does not return the empty
string on every out-of-range input — the Python negative index -1 wraps
around the calendar table and yields "December". -/
theorem month_name_negative_cex :
    _month_name "-1" = "December" ∧ ¬ _month_name "-1" = "" := by decide

/-- C8 amended: the extractor is total; it maps 1–12 to the English
month name, returns "" on non-numeric input, on 0, and on any number
beyond 12 or below -12, but maps a negative number -1..-12 to the month
it indexes from the end of the table (Python negative indexing). -/
theorem month_name_rules :
    (∀ s, pyInt s = none → _month_name s = "") ∧
    (∀ s (n : Nat), pyInt s = some (n : Int) → 1 ≤ n → n ≤ 12 →
      _month_name s = monthNameTable.getD n "") ∧
    (∀ s, pyInt s = some 0 → _month_name s = "") ∧
    (∀ s (n : Nat), pyInt s = some (n : Int) → 13 ≤ n → _month_name s = "") ∧
    (∀ s (n : Nat), pyInt s = some (-(n : Int)) → 1 ≤ n → n ≤ 12 →
      _month_name s = monthNameTable.getD (13 - n) "") ∧
    (∀ s (n : Nat), pyInt s = some (-(n : Int)) → 13 ≤ n → _month_name s = "") := by
  refine ⟨fun s h => ?_, fun s n h h1 h2 => ?_, fun s h => ?_,
    fun s n h h13 => ?_, fun s n h h1 h2 => ?_, fun s n h h13 => ?_⟩
  · simp only [_month_name, h]
  · simp only [_month_name, h]
    interval_cases n <;> rfl
  · simp only [_month_name, h]
    rfl
  · simp only [_month_name, h]
    have hidx : pyIndex monthNameTable (n : Int) = none := by
      unfold pyIndex
      rw [if_pos (show (0 : Int) ≤ (n : Int) by omega)]
      apply List.get?_eq_none.mpr
      rw [Int.toNat_natCast]
      show monthNameTable.length ≤ n
      have hL : monthNameTable.length = 13 := rfl
      omega
    rw [hidx]
  · simp only [_month_name, h]
    interval_cases n <;> rfl
  · by_cases h13' : n = 13
    · subst h13'
      simp only [_month_name, h]
      rfl
    · simp only [_month_name, h]
      have hidx : pyIndex monthNameTable (-(n : Int)) = none := by
        unfold pyIndex
        rw [if_neg (by omega)]
        have hL : ((monthNameTable.length : Nat) : Int) = 13 := rfl
        rw [hL, if_neg (by omega)]
      rw [hidx]

/-- C8 amended witness: "5" maps to May, "abc" and "40" map to "", and
"-2" wraps to November. -/
theorem month_name_rules_witness :
    _month_name "5" = monthNameTable.getD 5 "" ∧
    _month_name "abc" = "" ∧
    _month_name "40" = "" ∧
    _month_name "-2" = monthNameTable.getD (13 - 2) "" :=
  ⟨month_name_rules.2.1 "5" 5 (by decide) (by decide) (by decide),
   month_name_rules.1 "abc" (by decide),
   month_name_rules.2.2.2.1 "40" 40 (by decide) (by decide),
   month_name_rules.2.2.2.2.1 "-2" 2 (by decide) (by decide) (by decide)⟩

example : _sortkey [("year", "2019"), ("month", "May")] = .ok "201905" := by decide
example : _sortkey [("year", "2019"), ("month", "5")] = .ok "201905" := by decide
example : _sortkey [("year", "2019")] = .ok "201900" := by decide
example : _sortkey [("year", "2019"), ("month", "Smarch")] = .ok "201900" := by decide
example : _month_name "5" = "May" := by decide
example : _month_name "-1" = "December" := by decide
example : _month_name "0" = "" := by decide
example : _month_name "13" = "" := by decide
example : _month_name "x" = "" := by decide
example : english_list [] = "" := by decide
example : english_list ["A"] = "A" := by decide
example : english_list ["A", "B"] = "A and B" := by decide
example : english_list ["A", "B", "C"] = "A, B, and C" := by decide
example : _doi [("doi", "10.1000/xyz")] = "https://dx.doi.org/10.1000/xyz" := by decide
example : _better_biblatex [("date", "2019-05-12")] =
    .ok [("date", "2019-05-12"), ("year", "2019"), ("month", "05")] := by decide
example : _better_biblatex [("date", "2019")] =
    .ok [("date", "2019"), ("year", "2019")] := by decide
example : _better_biblatex [("year", "2019"), ("journaltitle", "Nature")] =
    .ok [("year", "2019"), ("journaltitle", "Nature"), ("journal", "Nature")] := by decide
example : _venue ⟨"widget", [("title", "T")]⟩ false = .ok "Unknown venue (type=widget)" := by
  decide
example : _venue ⟨"widget", [("title", "T")]⟩ true = .error (.unexpectedType "widget") := by
  decide
example : _venue ⟨"article", [("journal", "ACM Comm."), ("volume", "5"), ("number", "2")]⟩
    true = .ok "ACM Comm. 5(2)" := by decide
